import Mathlib

/-!
Shallow embedding of the `Mask` class of `silx/gui/plot/MaskToolsWidget.py`
(the leveled bitmap mask engine): the 2D uint8 label grid, the whole-mask
and region-edit operations, and the bounded undo/redo history, together
with the Qt signals the class emits.

Modelling conventions:
* the numpy uint8 array is a `Grid`: the numpy shape tuple (`List Nat`)
  plus the row-major data (`List Nat`); writes wrap modulo 256 as the
  uint8 dtype does;
* the freshly constructed mask `numpy.array((), dtype=uint8)` is the 1-D
  empty array of shape `(0,)`, hence `Grid.mk [0] []`;
* `numpy.all(numpy.equal(a, b))` in `commit` is modelled as structural
  equality of grids; for two grids of equal shape this is exactly
  element-wise equality (comparison of differently-shaped operands,
  which numpy broadcasts or rejects, is modelled as inequality);
* Qt signal emissions are recorded in an `events` log carried by the
  state; a Python `assert` failure raises before any mutation, so it is
  modelled by returning the state unchanged;
* the external geometry provider (`silx.image.shapes`, not part of the
  sources) enters only as data: the polygon fill grid and the disk/line
  coordinate lists are parameters of the corresponding operations.
-/

/-- A 2D numpy array of uint8 labels: shape tuple plus row-major data. -/
structure Grid where
  shape : List Nat
  data : List Nat
deriving DecidableEq, Repr

/-- Number of rows, `shape[0]`. -/
def Grid.rows (g : Grid) : Nat := g.shape.getD 0 0

/-- Number of columns, `shape[1]`. -/
def Grid.cols (g : Grid) : Nat := g.shape.getD 1 0

/-- Well-formedness of a 2D array: the data has exactly `rows * cols`
entries. -/
def Grid.Wf (g : Grid) : Prop := g.data.length = g.rows * g.cols

instance (g : Grid) : Decidable g.Wf := by unfold Grid.Wf; infer_instance

/-- Cell `(r, c)` of the grid (row-major); 0 outside the data. -/
def Grid.get (g : Grid) (r c : Nat) : Nat := g.data.getD (r * g.cols + c) 0

/-- `numpy.zeros(shape, dtype=numpy.uint8)` for a 2-tuple shape. -/
def zeroGrid (r c : Nat) : Grid := ⟨[r, c], List.replicate (r * c) 0⟩

/-- Apply `f row col value` to every cell: the shape of every vectorized
numpy in-place update used by the Mask class. -/
def Grid.mapCells (g : Grid) (f : Nat → Nat → Nat → Nat) : Grid :=
  { g with
    data := (List.range g.data.length).map
      (fun i => f (i / g.cols) (i % g.cols) (g.data.getD i 0)) }

/-- Python slice stop index for step 1 on an axis of length `n`: a
negative stop counts from the end of the axis (`max 0 (n + b)`), a
nonnegative stop is clipped to `n`. -/
def sliceStop (n : Nat) (b : Int) : Nat :=
  if b < 0 then ((n : Int) + b).toNat else min b.toNat n

/-- Array part of `Mask.clear`: `mask[mask == level] = 0`. -/
def Grid.clear (g : Grid) (level : Nat) : Grid :=
  g.mapCells fun _ _ v => if v = level then 0 else v

/-- Array part of `Mask.invert`: `masked = mask == level;
mask[mask == 0] = level; mask[masked] = 0`. -/
def Grid.invert (g : Grid) (level : Nat) : Grid :=
  g.mapCells fun _ _ v => if v = 0 then level % 256 else if v = level then 0 else v

/-- Array part of `Mask.updatePoints`: keep the in-bounds `(row, col)`
pairs, then write `level` at them (mask) or zero those of them currently
equal to `level` (unmask). -/
def Grid.updatePoints (g : Grid) (level : Nat) (rs cs : List Int) (mask : Bool) : Grid :=
  let pts := (rs.zip cs).filter fun p =>
    decide (0 ≤ p.1 ∧ 0 ≤ p.2 ∧ p.1 < (g.rows : Int) ∧ p.2 < (g.cols : Int))
  if mask then
    g.mapCells fun r c v => if ((r : Int), (c : Int)) ∈ pts then level % 256 else v
  else
    g.mapCells fun r c v => if ((r : Int), (c : Int)) ∈ pts ∧ v = level then 0 else v

/-- Array part of `Mask.updateRectangle`:
`mask[max(0,row):row+height+1, max(0,col):col+width+1]`, assigned
wholesale (mask) or zeroed where equal to `level` (unmask). -/
def Grid.updateRectangle (g : Grid) (level : Nat) (row col height width : Int)
    (mask : Bool) : Grid :=
  let r0 := min (max 0 row).toNat g.rows
  let r1 := sliceStop g.rows (row + height + 1)
  let c0 := min (max 0 col).toNat g.cols
  let c1 := sliceStop g.cols (col + width + 1)
  if mask then
    g.mapCells fun r c v => if r0 ≤ r ∧ r < r1 ∧ c0 ≤ c ∧ c < c1 then level % 256 else v
  else
    g.mapCells fun r c v =>
      if (r0 ≤ r ∧ r < r1 ∧ c0 ≤ c ∧ c < c1) ∧ v = level then 0 else v

/-- Array part of `Mask.updatePolygon`; `fill` is the boolean result of
the external `shapes.polygon_fill_mask`, as a cell predicate. -/
def Grid.updatePolygon (g : Grid) (level : Nat) (fill : Nat → Nat → Bool)
    (mask : Bool) : Grid :=
  if mask then g.mapCells fun r c v => if fill r c then level % 256 else v
  else g.mapCells fun r c v => if fill r c ∧ v = level then 0 else v

/-- `numpy.nonzero` on a 2D array: row-major coordinate lists of the
nonzero cells, as the two integer index arrays. -/
def Grid.nonzeroCoords (g : Grid) : List Int × List Int :=
  let idxs := (List.range g.data.length).filter fun i => decide (g.data.getD i 0 ≠ 0)
  (idxs.map fun i => ((i / g.cols : Nat) : Int),
   idxs.map fun i => ((i % g.cols : Nat) : Int))

/-- The Qt signals of the Mask class: `sigChanged`, `sigUndoable`,
`sigRedoable`. -/
inductive Event where
  | changed : Event
  | undoable : Bool → Event
  | redoable : Bool → Event
deriving DecidableEq, Repr

/-- The state of a Mask object (`_mask`, `_history`, `_redo`,
`historyDepth`) plus the log of emitted signals. -/
structure MaskState where
  grid : Grid
  history : List Grid
  redo : List Grid
  historyDepth : Nat
  events : List Event
deriving DecidableEq, Repr

/-- Append emitted signals to the log. -/
def withEvents (s : MaskState) (es : List Event) : MaskState :=
  { s with events := s.events ++ es }

/-- `Mask.__init__`: empty 1-D array, empty history and redo lists,
history depth 10. -/
def MaskState.init : MaskState :=
  { grid := ⟨[0], []⟩, history := [], redo := [], historyDepth := 10, events := [] }

/-- `Mask._notify`. -/
def Mask.notify (s : MaskState) : MaskState := withEvents s [Event.changed]

/-- `Mask.setMask`: requires a rank-2 array, coerces it to uint8. -/
def Mask.setMask (m : Grid) (s : MaskState) : MaskState :=
  if m.shape.length = 2 then
    Mask.notify { s with grid := { m with data := m.data.map (· % 256) } }
  else s

/-- `Mask.resetHistory`. -/
def Mask.resetHistory (s : MaskState) : MaskState :=
  { s with history := [s.grid], redo := [],
           events := s.events ++ [Event.undoable false, Event.redoable false] }

/-- The `while len(self._history) >= self.historyDepth:
self._history.pop(0)` loop of `Mask.commit`: drop from the front until
fewer than `depth` entries remain. -/
def capHistory (depth : Nat) (l : List Grid) : List Grid :=
  l.drop (l.length + 1 - depth)

/-- `Mask.commit`. -/
def Mask.commit (s : MaskState) : MaskState :=
  if s.history = [] ∨ s.redo ≠ [] ∨ s.history.getLast? ≠ some s.grid then
    let h' := capHistory s.historyDepth s.history ++ [s.grid]
    { s with history := h', redo := [],
             events := s.events
               ++ (if s.redo ≠ [] then [Event.redoable false] else [])
               ++ (if h'.length = 2 then [Event.undoable true] else []) }
  else s

/-- `Mask.undo`. -/
def Mask.undo (s : MaskState) : MaskState :=
  if 1 < s.history.length then
    let h' := s.history.dropLast
    { s with grid := h'.getLastD s.grid,
             history := h',
             redo := s.redo ++ [s.history.getLastD s.grid],
             events := s.events ++ [Event.changed]
               ++ (if s.redo.length = 0 then [Event.redoable true] else [])
               ++ (if h'.length = 1 then [Event.undoable false] else []) }
  else s

/-- `Mask.redo`. -/
def Mask.redo (s : MaskState) : MaskState :=
  if s.redo = [] then s
  else
    let g' := s.redo.getLastD s.grid
    let h' := s.history ++ [g']
    { s with grid := g', history := h', redo := s.redo.dropLast,
             events := s.events ++ [Event.changed]
               ++ (if s.redo.dropLast = [] then [Event.redoable false] else [])
               ++ (if h'.length = 2 then [Event.undoable true] else []) }

/-- `Mask.clear`. -/
def Mask.clear (level : Nat) (s : MaskState) : MaskState :=
  if 0 < level ∧ level < 256 then Mask.notify { s with grid := s.grid.clear level }
  else s

/-- `Mask.reset`: zero grid of the target shape; a shape change triggers
`resetHistory`; always notifies. -/
def Mask.reset (target : Option (Nat × Nat)) (s : MaskState) : MaskState :=
  let t := target.getD (0, 0)
  let s' := { s with grid := zeroGrid t.1 t.2 }
  Mask.notify (if [t.1, t.2] ≠ s.grid.shape then Mask.resetHistory s' else s')

/-- `Mask.invert`. -/
def Mask.invert (level : Nat) (s : MaskState) : MaskState :=
  if 0 < level ∧ level < 256 then Mask.notify { s with grid := s.grid.invert level }
  else s

/-- `Mask.updateRectangle`. -/
def Mask.updateRectangle (level : Nat) (row col height width : Int) (mask : Bool)
    (s : MaskState) : MaskState :=
  if 0 < level ∧ level < 256 then
    Mask.notify { s with grid := s.grid.updateRectangle level row col height width mask }
  else s

/-- `Mask.updatePoints`. -/
def Mask.updatePoints (level : Nat) (rs cs : List Int) (mask : Bool)
    (s : MaskState) : MaskState :=
  Mask.notify { s with grid := s.grid.updatePoints level rs cs mask }

/-- `Mask.updatePolygon`; the external `polygon_fill_mask` result is the
`fill` parameter. -/
def Mask.updatePolygon (level : Nat) (fill : Nat → Nat → Bool) (mask : Bool)
    (s : MaskState) : MaskState :=
  Mask.notify { s with grid := s.grid.updatePolygon level fill mask }

/-- `Mask.updateStencil`: `numpy.nonzero` on the stencil, then
`updatePoints`. -/
def Mask.updateStencil (level : Nat) (stencil : Grid) (mask : Bool)
    (s : MaskState) : MaskState :=
  Mask.updatePoints level stencil.nonzeroCoords.1 stencil.nonzeroCoords.2 mask s

/-- `Mask.updateDisk`; the external `circle_fill` coordinates are the
`rs`, `cs` parameters. -/
def Mask.updateDisk (level : Nat) (rs cs : List Int) (mask : Bool)
    (s : MaskState) : MaskState :=
  Mask.updatePoints level rs cs mask s

/-- `Mask.updateLine`; the external `draw_line` coordinates are the
`rs`, `cs` parameters. -/
def Mask.updateLine (level : Nat) (rs cs : List Int) (mask : Bool)
    (s : MaskState) : MaskState :=
  Mask.updatePoints level rs cs mask s

/-- One call to the Mask API, for reasoning about reachable states. -/
inductive Op where
  | setMask : Grid → Op
  | resetHistory : Op
  | commit : Op
  | undo : Op
  | redo : Op
  | clear : Nat → Op
  | reset : Option (Nat × Nat) → Op
  | invert : Nat → Op
  | updateRectangle : Nat → Int → Int → Int → Int → Bool → Op
  | updatePolygon : Nat → (Nat → Nat → Bool) → Bool → Op
  | updatePoints : Nat → List Int → List Int → Bool → Op
  | updateStencil : Nat → Grid → Bool → Op
  | updateDisk : Nat → List Int → List Int → Bool → Op
  | updateLine : Nat → List Int → List Int → Bool → Op

/-- Interpret one call. -/
def Mask.step (op : Op) (s : MaskState) : MaskState :=
  match op with
  | .setMask m => Mask.setMask m s
  | .resetHistory => Mask.resetHistory s
  | .commit => Mask.commit s
  | .undo => Mask.undo s
  | .redo => Mask.redo s
  | .clear level => Mask.clear level s
  | .reset target => Mask.reset target s
  | .invert level => Mask.invert level s
  | .updateRectangle level row col h w m => Mask.updateRectangle level row col h w m s
  | .updatePolygon level f m => Mask.updatePolygon level f m s
  | .updatePoints level rs cs m => Mask.updatePoints level rs cs m s
  | .updateStencil level st m => Mask.updateStencil level st m s
  | .updateDisk level rs cs m => Mask.updateDisk level rs cs m s
  | .updateLine level rs cs m => Mask.updateLine level rs cs m s

/-- Run a call sequence on a freshly constructed Mask. -/
def Mask.runOps (ops : List Op) : MaskState :=
  ops.foldl (fun s op => Mask.step op s) MaskState.init

/-! ## Basic lemmas about the grid embedding -/

theorem Grid.shape_mapCells (g : Grid) (f : Nat → Nat → Nat → Nat) :
    (g.mapCells f).shape = g.shape := rfl

theorem Grid.cols_mapCells (g : Grid) (f : Nat → Nat → Nat → Nat) :
    (g.mapCells f).cols = g.cols := rfl

theorem Grid.length_data_mapCells (g : Grid) (f : Nat → Nat → Nat → Nat) :
    (g.mapCells f).data.length = g.data.length := by
  simp [Grid.mapCells]

/-- The updated data of `mapCells`, read at an in-range flat index. -/
theorem Grid.getD_data_mapCells (g : Grid) (f : Nat → Nat → Nat → Nat) (i : Nat)
    (hi : i < g.data.length) :
    (g.mapCells f).data.getD i 0 = f (i / g.cols) (i % g.cols) (g.data.getD i 0) := by
  simp only [Grid.mapCells]
  simp [List.getD_eq_getElem?_getD, List.getElem?_range hi]

/-- The central pointwise lemma: a vectorized cell update evaluated at an
in-range cell. -/
theorem Grid.get_mapCells (g : Grid) (f : Nat → Nat → Nat → Nat) (r c : Nat)
    (hw : g.Wf) (hr : r < g.rows) (hc : c < g.cols) :
    (g.mapCells f).get r c = f r c (g.get r c) := by
  have hcpos : 0 < g.cols := Nat.lt_of_le_of_lt (Nat.zero_le c) hc
  have hidx : r * g.cols + c < g.data.length := by
    rw [hw]
    have h1 : r * g.cols + c < (r + 1) * g.cols := by
      rw [Nat.succ_mul]; omega
    have h2 : (r + 1) * g.cols ≤ g.rows * g.cols :=
      Nat.mul_le_mul_right _ hr
    omega
  have hdiv : (r * g.cols + c) / g.cols = r := by
    rw [Nat.mul_comm, Nat.mul_add_div hcpos, Nat.div_eq_of_lt hc, Nat.add_zero]
  have hmod : (r * g.cols + c) % g.cols = c := by
    rw [Nat.mul_add_mod', Nat.mod_eq_of_lt hc]
  have hcols : (g.mapCells f).cols = g.cols := rfl
  unfold Grid.get
  rw [hcols, Grid.getD_data_mapCells g f _ hidx, hdiv, hmod]

/-- Pointwise characterization of the `updatePoints` array update at an
in-grid cell: only the (automatically in-bounds) occurrences of that
cell among the coordinate pairs matter. -/
theorem Grid.get_updatePoints (g : Grid) (level : Nat) (rs cs : List Int) (mask : Bool)
    (r c : Nat) (hw : g.Wf) (hr : r < g.rows) (hc : c < g.cols) :
    (g.updatePoints level rs cs mask).get r c =
      if ((r : Int), (c : Int)) ∈ rs.zip cs then
        (if mask then level % 256 else if g.get r c = level then 0 else g.get r c)
      else g.get r c := by
  have hp : (fun (p : Int × Int) =>
      decide (0 ≤ p.1 ∧ 0 ≤ p.2 ∧ p.1 < (g.rows : Int) ∧ p.2 < (g.cols : Int)))
      ((r : Int), (c : Int)) = true := by
    simp only [decide_eq_true_eq]
    omega
  have hmem : (((r : Int), (c : Int)) ∈ (rs.zip cs).filter fun p =>
      decide (0 ≤ p.1 ∧ 0 ≤ p.2 ∧ p.1 < (g.rows : Int) ∧ p.2 < (g.cols : Int))) ↔
      ((r : Int), (c : Int)) ∈ rs.zip cs := by
    rw [List.mem_filter]
    exact ⟨fun h => h.1, fun h => ⟨h, hp⟩⟩
  have hT : g.updatePoints level rs cs true = g.mapCells (fun a b v =>
      if ((a : Int), (b : Int)) ∈ (rs.zip cs).filter (fun p =>
        decide (0 ≤ p.1 ∧ 0 ≤ p.2 ∧ p.1 < (g.rows : Int) ∧ p.2 < (g.cols : Int)))
      then level % 256 else v) := rfl
  have hF : g.updatePoints level rs cs false = g.mapCells (fun a b v =>
      if (((a : Int), (b : Int)) ∈ (rs.zip cs).filter (fun p =>
        decide (0 ≤ p.1 ∧ 0 ≤ p.2 ∧ p.1 < (g.rows : Int) ∧ p.2 < (g.cols : Int)))) ∧
        v = level
      then 0 else v) := rfl
  by_cases hm : ((r : Int), (c : Int)) ∈ rs.zip cs
  · rw [if_pos hm]
    cases mask with
    | true =>
      rw [hT, Grid.get_mapCells _ _ _ _ hw hr hc, if_pos (hmem.mpr hm)]
      rfl
    | false =>
      rw [hF, Grid.get_mapCells _ _ _ _ hw hr hc]
      by_cases hv : g.get r c = level
      · rw [if_pos ⟨hmem.mpr hm, hv⟩, if_pos hv]
        rfl
      · rw [if_neg (fun h => hv h.2), if_neg hv]
        rfl
  · rw [if_neg hm]
    cases mask with
    | true =>
      rw [hT, Grid.get_mapCells _ _ _ _ hw hr hc, if_neg (fun h => hm (hmem.mp h))]
    | false =>
      rw [hF, Grid.get_mapCells _ _ _ _ hw hr hc, if_neg (fun h => hm (hmem.mp h.1))]

/-- Pointwise characterization of the masking rectangle update when the
two Python slice stops are nonnegative (no numpy negative-index wrap):
the selected region is `[max{0,row}, row+height] × [max{0,col}, col+width]`
intersected with the grid. -/
theorem Grid.get_updateRectangle_true (g : Grid) (level : Nat)
    (row col height width : Int) (r c : Nat) (hw : g.Wf)
    (hr : r < g.rows) (hc : c < g.cols)
    (hbr : 0 ≤ row + height + 1) (hbc : 0 ≤ col + width + 1) :
    (g.updateRectangle level row col height width true).get r c =
      if max 0 row ≤ (r : Int) ∧ (r : Int) ≤ row + height ∧
         max 0 col ≤ (c : Int) ∧ (c : Int) ≤ col + width
      then level % 256 else g.get r c := by
  have hT : g.updateRectangle level row col height width true =
      g.mapCells (fun a b v =>
        if min (max 0 row).toNat g.rows ≤ a ∧ a < sliceStop g.rows (row + height + 1) ∧
           min (max 0 col).toNat g.cols ≤ b ∧ b < sliceStop g.cols (col + width + 1)
        then level % 256 else v) := rfl
  rw [hT, Grid.get_mapCells _ _ _ _ hw hr hc]
  have hsel : (min (max 0 row).toNat g.rows ≤ r ∧
      r < sliceStop g.rows (row + height + 1) ∧
      min (max 0 col).toNat g.cols ≤ c ∧
      c < sliceStop g.cols (col + width + 1)) ↔
      (max 0 row ≤ (r : Int) ∧ (r : Int) ≤ row + height ∧
       max 0 col ≤ (c : Int) ∧ (c : Int) ≤ col + width) := by
    unfold sliceStop
    rw [if_neg (by omega), if_neg (by omega)]
    omega
  by_cases hs : max 0 row ≤ (r : Int) ∧ (r : Int) ≤ row + height ∧
      max 0 col ≤ (c : Int) ∧ (c : Int) ≤ col + width
  · rw [if_pos (hsel.mpr hs), if_pos hs]
  · rw [if_neg (fun h => hs (hsel.mp h)), if_neg hs]

/-- Unmasking a rectangle never touches a cell holding a value other
than `level` (for any slice, wrapped or not). -/
theorem Grid.get_updateRectangle_false_ne (g : Grid) (level : Nat)
    (row col height width : Int) (r c : Nat) (hw : g.Wf)
    (hr : r < g.rows) (hc : c < g.cols) (hne : g.get r c ≠ level) :
    (g.updateRectangle level row col height width false).get r c = g.get r c := by
  have hF : g.updateRectangle level row col height width false =
      g.mapCells (fun a b v =>
        if (min (max 0 row).toNat g.rows ≤ a ∧ a < sliceStop g.rows (row + height + 1) ∧
            min (max 0 col).toNat g.cols ≤ b ∧ b < sliceStop g.cols (col + width + 1)) ∧
           v = level
        then 0 else v) := rfl
  rw [hF, Grid.get_mapCells _ _ _ _ hw hr hc, if_neg (fun h => hne h.2)]

/-- Pointwise characterization of `invert`. -/
theorem Grid.get_invert (g : Grid) (level : Nat) (r c : Nat) (hw : g.Wf)
    (hr : r < g.rows) (hc : c < g.cols) :
    (g.invert level).get r c =
      if g.get r c = 0 then level % 256
      else if g.get r c = level then 0 else g.get r c :=
  Grid.get_mapCells _ _ _ _ hw hr hc

/-! ## Mask-level projections of the region operations -/

theorem Mask.grid_updatePoints (level : Nat) (rs cs : List Int) (m : Bool)
    (s : MaskState) :
    (Mask.updatePoints level rs cs m s).grid = s.grid.updatePoints level rs cs m := rfl

theorem Mask.grid_updateRectangle (level : Nat) (row col height width : Int)
    (m : Bool) (s : MaskState) (h1 : 0 < level) (h2 : level < 256) :
    (Mask.updateRectangle level row col height width m s).grid =
      s.grid.updateRectangle level row col height width m := by
  unfold Mask.updateRectangle
  rw [if_pos ⟨h1, h2⟩]
  rfl

theorem Mask.grid_invert (level : Nat) (s : MaskState)
    (h1 : 0 < level) (h2 : level < 256) :
    (Mask.invert level s).grid = s.grid.invert level := by
  unfold Mask.invert
  rw [if_pos ⟨h1, h2⟩]
  rfl

/-! ## Claim theorems -/

/-- Claim C5 (confirmed): for every grid and level in `[1,255]`, after
`invert(level)` every cell that held 0 holds `level`, every cell that
held `level` holds 0, and every other nonzero label is unchanged. -/
theorem claim_C5 (s : MaskState) (level : Nat) (r c : Nat)
    (hw : s.grid.Wf) (h1 : 0 < level) (h2 : level < 256)
    (hr : r < s.grid.rows) (hc : c < s.grid.cols) :
    (Mask.invert level s).grid.get r c =
      if s.grid.get r c = 0 then level
      else if s.grid.get r c = level then 0 else s.grid.get r c := by
  rw [Mask.grid_invert level s h1 h2, Grid.get_invert _ _ _ _ hw hr hc,
    Nat.mod_eq_of_lt h2]

/-- Witness for C5: inverting level 2 on a grid `[[0,2],[5,0]]` turns
the level-2 cell at `(0,1)` into 0. -/
theorem claim_C5_witness :
    (Mask.invert 2 { MaskState.init with grid := ⟨[2, 2], [0, 2, 5, 0]⟩ }).grid.get 0 1
      = 0 := by
  have h := claim_C5 { MaskState.init with grid := ⟨[2, 2], [0, 2, 5, 0]⟩ } 2 0 1
    (by decide) (by decide) (by decide) (by decide) (by decide)
  rw [h]
  decide

/-- Claim C4 (confirmed): `updatePoints` silently drops exactly the
out-of-bounds coordinate pairs, and only the surviving pairs affect the
grid; on a 5x5 grid, `updatePoints(level=1, rows=[-1,0,10], cols=[0,0,0],
mask=true)` sets only cell `(0,0)`. -/
theorem claim_C4 (s : MaskState) (level : Nat) (rs cs : List Int) (mask : Bool)
    (r c : Nat) (hw : s.grid.Wf) (_h1 : 0 < level) (h2 : level < 256)
    (hr : r < s.grid.rows) (hc : c < s.grid.cols) :
    ((Mask.updatePoints level rs cs mask s).grid.get r c =
      if ((r : Int), (c : Int)) ∈ rs.zip cs then
        (if mask then level else if s.grid.get r c = level then 0 else s.grid.get r c)
      else s.grid.get r c)
    ∧ (Mask.updatePoints 1 [-1, 0, 10] [0, 0, 0] true
        { MaskState.init with grid := zeroGrid 5 5 }).grid =
      ⟨[5, 5], 1 :: List.replicate 24 0⟩ := by
  constructor
  · rw [Mask.grid_updatePoints, Grid.get_updatePoints _ _ _ _ _ _ _ hw hr hc,
      Nat.mod_eq_of_lt h2]
  · decide

/-- Witness for C4: a point list containing the in-bounds pair `(1,0)`
masks that cell with level 7 on a 3x3 grid. -/
theorem claim_C4_witness :
    (Mask.updatePoints 7 [1] [0] true
      { MaskState.init with grid := zeroGrid 3 3 }).grid.get 1 0 = 7 := by
  have h := (claim_C4 { MaskState.init with grid := zeroGrid 3 3 } 7 [1] [0] true 1 0
    (by decide) (by decide) (by decide) (by decide) (by decide)).1
  rw [h]
  decide

/-- Claim C1 (confirmed): masking is last-writer-wins (a selected
in-bounds cell is set to `level` regardless of its previous label) and
unmasking is level-scoped (a selected cell is zeroed only if it holds
`level`; a cell holding a different label is untouched, also by
`updateRectangle`); on an empty 5x5 grid, masking `(0,0)` with level 3
then unmasking with level 5 leaves the cell at 3. -/
theorem claim_C1 (s : MaskState) (level : Nat) (rs cs : List Int)
    (row col height width : Int) (r c : Nat)
    (hw : s.grid.Wf) (h1 : 0 < level) (h2 : level < 256)
    (hr : r < s.grid.rows) (hc : c < s.grid.cols) :
    (((r : Int), (c : Int)) ∈ rs.zip cs →
      (Mask.updatePoints level rs cs true s).grid.get r c = level)
    ∧ (((r : Int), (c : Int)) ∈ rs.zip cs →
      (Mask.updatePoints level rs cs false s).grid.get r c =
        if s.grid.get r c = level then 0 else s.grid.get r c)
    ∧ (s.grid.get r c ≠ level →
      (Mask.updateRectangle level row col height width false s).grid.get r c =
        s.grid.get r c)
    ∧ (Mask.updateRectangle 5 0 0 1 1 false
        (Mask.updateRectangle 3 0 0 1 1 true
          { MaskState.init with grid := zeroGrid 5 5 })).grid.get 0 0 = 3 := by
  refine ⟨?_, ?_, ?_, by decide⟩
  · intro hm
    rw [Mask.grid_updatePoints, Grid.get_updatePoints _ _ _ _ _ _ _ hw hr hc,
      if_pos hm]
    show level % 256 = level
    exact Nat.mod_eq_of_lt h2
  · intro hm
    rw [Mask.grid_updatePoints, Grid.get_updatePoints _ _ _ _ _ _ _ hw hr hc,
      if_pos hm]
    rfl
  · intro hne
    rw [Mask.grid_updateRectangle _ _ _ _ _ _ _ h1 h2]
    exact Grid.get_updateRectangle_false_ne _ _ _ _ _ _ _ _ hw hr hc hne

/-- Witness for C1: masking the single pair `(0,0)` with level 9 on a
2x2 grid that held label 4 there overwrites it to 9. -/
theorem claim_C1_witness :
    (Mask.updatePoints 9 [0] [0] true
      { MaskState.init with grid := ⟨[2, 2], [4, 0, 0, 0]⟩ }).grid.get 0 0 = 9 :=
  (claim_C1 { MaskState.init with grid := ⟨[2, 2], [4, 0, 0, 0]⟩ } 9 [0] [0]
    0 0 0 0 0 0 (by decide) (by decide) (by decide) (by decide) (by decide)).1
    (by decide)

/-- Counterexample to claim C9 as stated: on a 5x5 zero grid,
`updateRectangle(level=1, row=-3, col=0, height=1, width=1, mask=true)`
sets cell `(0,0)` to 1, although the claimed selected region
`[max(0,row), row+height] x [max(0,col), col+width]` is empty there
(`row+height = -2 < 0`), so the claim predicts the cell stays 0: the
Python slice stop `row+height+1 = -1` is negative and numpy counts it
from the end of the axis. -/
theorem claim_C9_cex :
    (Mask.updateRectangle 1 (-3) 0 1 1 true
      { MaskState.init with grid := zeroGrid 5 5 }).grid.get 0 0 = 1
    ∧ ¬ ((0 : Int) ≤ -3 + 1) := by decide

/-- Claim C9 as amended (the nearby true statement): whenever the slice
stops `row+height+1` and `col+width+1` are nonnegative (no numpy
negative-index wrap), `updateRectangle` with `mask=true` sets to `level`
exactly the in-grid cells `(r,c)` with `max(0,row) <= r <= row+height`
and `max(0,col) <= c <= col+width`, and leaves every other cell
unchanged; out-of-grid parts of the rectangle are cropped without
error, selecting no cells when the rectangle lies fully outside. -/
theorem claim_C9 (s : MaskState) (level : Nat) (row col height width : Int)
    (r c : Nat) (hw : s.grid.Wf) (h1 : 0 < level) (h2 : level < 256)
    (hr : r < s.grid.rows) (hc : c < s.grid.cols)
    (hbr : 0 ≤ row + height + 1) (hbc : 0 ≤ col + width + 1) :
    (Mask.updateRectangle level row col height width true s).grid.get r c =
      if max 0 row ≤ (r : Int) ∧ (r : Int) ≤ row + height ∧
         max 0 col ≤ (c : Int) ∧ (c : Int) ≤ col + width
      then level else s.grid.get r c := by
  rw [Mask.grid_updateRectangle _ _ _ _ _ _ _ h1 h2,
    Grid.get_updateRectangle_true _ _ _ _ _ _ _ _ hw hr hc hbr hbc,
    Nat.mod_eq_of_lt h2]

/-- Witness for C9: a rectangle starting above the grid (`row=-1`) is
cropped and still covers the in-grid cell `(1,2)`. -/
theorem claim_C9_witness :
    (Mask.updateRectangle 3 (-1) 2 2 1 true
      { MaskState.init with grid := zeroGrid 5 5 }).grid.get 1 2 = 3 := by
  have h := claim_C9 { MaskState.init with grid := zeroGrid 5 5 } 3 (-1) 2 2 1 1 2
    (by decide) (by decide) (by decide) (by decide) (by decide) (by decide) (by decide)
  rw [h]
  decide

/-! ## Shape and field preservation lemmas -/

theorem Grid.shape_clear (g : Grid) (level : Nat) : (g.clear level).shape = g.shape := rfl

theorem Grid.shape_invert (g : Grid) (level : Nat) : (g.invert level).shape = g.shape := rfl

theorem Grid.shape_updatePoints (g : Grid) (level : Nat) (rs cs : List Int) (m : Bool) :
    (g.updatePoints level rs cs m).shape = g.shape := by
  unfold Grid.updatePoints
  split <;> rfl

theorem Grid.shape_updateRectangle (g : Grid) (level : Nat)
    (row col height width : Int) (m : Bool) :
    (g.updateRectangle level row col height width m).shape = g.shape := by
  unfold Grid.updateRectangle
  split <;> rfl

theorem Grid.shape_updatePolygon (g : Grid) (level : Nat) (fill : Nat → Nat → Bool)
    (m : Bool) : (g.updatePolygon level fill m).shape = g.shape := by
  unfold Grid.updatePolygon
  split <;> rfl

theorem Mask.history_notify (s : MaskState) : (Mask.notify s).history = s.history := rfl

theorem Mask.history_resetHistory (s : MaskState) :
    (Mask.resetHistory s).history = [s.grid] := rfl

theorem Mask.undo_of_length_le_one (s : MaskState) (h : s.history.length ≤ 1) :
    Mask.undo s = s := by
  unfold Mask.undo
  rw [if_neg (by omega)]

/-- Claim C6 (confirmed): when the grid equals the last history snapshot
and the redo stack is empty, `commit()` is a complete no-op (no history
growth, no event); consequently a second consecutive `commit()` is
always a no-op. -/
theorem claim_C6 (s : MaskState) :
    (s.history.getLast? = some s.grid → s.redo = [] → Mask.commit s = s)
    ∧ Mask.commit (Mask.commit s) = Mask.commit s := by
  have hnoop : ∀ t : MaskState, t.history.getLast? = some t.grid → t.redo = [] →
      Mask.commit t = t := by
    intro t hl hr
    unfold Mask.commit
    rw [if_neg]
    rintro (h | h | h)
    · rw [h] at hl
      simp at hl
    · exact h hr
    · exact h hl
  refine ⟨hnoop s, ?_⟩
  by_cases hcond : s.history = [] ∨ s.redo ≠ [] ∨ s.history.getLast? ≠ some s.grid
  · have h1 : (Mask.commit s).history.getLast? = some (Mask.commit s).grid := by
      unfold Mask.commit
      rw [if_pos hcond]
      exact List.getLast?_concat _
    have h2 : (Mask.commit s).redo = [] := by
      unfold Mask.commit
      rw [if_pos hcond]
    exact hnoop _ h1 h2
  · have he : Mask.commit s = s := by
      unfold Mask.commit
      rw [if_neg hcond]
    rw [he]
    exact he

/-- Witness for C6: on a committed one-cell state, `commit` changes
nothing. -/
theorem claim_C6_witness :
    Mask.commit { grid := zeroGrid 1 1, history := [zeroGrid 1 1], redo := [],
                  historyDepth := 10, events := [] } =
      { grid := zeroGrid 1 1, history := [zeroGrid 1 1], redo := [],
        historyDepth := 10, events := [] } :=
  (claim_C6 _).1 (by decide) (by decide)

/-- Round trip on a committed state: when the grid equals the last
history snapshot, `undo` then `redo` restores the grid, the history and
the redo stack exactly. -/
theorem Mask.undo_redo_roundTrip (s : MaskState) (h2 : 1 < s.history.length)
    (hl : s.history.getLast? = some s.grid) :
    (Mask.redo (Mask.undo s)).grid = s.grid ∧
    (Mask.redo (Mask.undo s)).history = s.history ∧
    (Mask.redo (Mask.undo s)).redo = s.redo := by
  have hpop : s.history.getLastD s.grid = s.grid := by
    rw [List.getLastD_eq_getLast?, hl]
    rfl
  have hg : (Mask.undo s).grid = s.history.dropLast.getLastD s.grid := by
    unfold Mask.undo
    rw [if_pos h2]
  have hh : (Mask.undo s).history = s.history.dropLast := by
    unfold Mask.undo
    rw [if_pos h2]
  have hrd : (Mask.undo s).redo = s.redo ++ [s.grid] := by
    unfold Mask.undo
    rw [if_pos h2, hpop]
  have hne : (Mask.undo s).redo ≠ [] := by
    rw [hrd]
    simp
  have hgl : (Mask.undo s).redo.getLastD (Mask.undo s).grid = s.grid := by
    rw [List.getLastD_eq_getLast?, hrd, List.getLast?_concat]
    rfl
  refine ⟨?_, ?_, ?_⟩
  · have hx : (Mask.redo (Mask.undo s)).grid =
        (Mask.undo s).redo.getLastD (Mask.undo s).grid := by
      unfold Mask.redo
      rw [if_neg hne]
    rw [hx, hgl]
  · have hx : (Mask.redo (Mask.undo s)).history =
        (Mask.undo s).history ++ [(Mask.undo s).redo.getLastD (Mask.undo s).grid] := by
      unfold Mask.redo
      rw [if_neg hne]
    rw [hx, hgl, hh]
    exact List.dropLast_append_getLast? _ hl
  · have hx : (Mask.redo (Mask.undo s)).redo = (Mask.undo s).redo.dropLast := by
      unfold Mask.redo
      rw [if_neg hne]
    rw [hx, hrd, List.dropLast_concat]

/-- Counterexample to claim C2 as stated: a reachable state with an
uncommitted modification (grid `[[2]]`, last snapshot `[[1]]`) has
history length 2, but `undo(); redo()` restores the snapshot `[[1]]`,
not the pre-undo grid `[[2]]`. -/
theorem claim_C2_cex :
    2 ≤ (Mask.runOps [Op.reset (some (1, 1)), Op.updateRectangle 1 0 0 0 0 true,
        Op.commit, Op.updateRectangle 2 0 0 0 0 true]).history.length
    ∧ (Mask.redo (Mask.undo (Mask.runOps [Op.reset (some (1, 1)),
        Op.updateRectangle 1 0 0 0 0 true, Op.commit,
        Op.updateRectangle 2 0 0 0 0 true]))).grid ≠
      (Mask.runOps [Op.reset (some (1, 1)), Op.updateRectangle 1 0 0 0 0 true,
        Op.commit, Op.updateRectangle 2 0 0 0 0 true]).grid := by decide

/-- Claim C2 as amended (the nearby true statement): for every reachable
state with history length at least 2 whose grid equals the last history
snapshot (no uncommitted modification), `undo()` then `redo()` yields a
grid element-wise equal to the pre-undo grid and leaves the history
length and redoStack length unchanged. -/
theorem claim_C2 (ops : List Op)
    (h2 : 2 ≤ (Mask.runOps ops).history.length)
    (hl : (Mask.runOps ops).history.getLast? = some (Mask.runOps ops).grid) :
    (Mask.redo (Mask.undo (Mask.runOps ops))).grid = (Mask.runOps ops).grid ∧
    (Mask.redo (Mask.undo (Mask.runOps ops))).history.length =
      (Mask.runOps ops).history.length ∧
    (Mask.redo (Mask.undo (Mask.runOps ops))).redo.length =
      (Mask.runOps ops).redo.length := by
  obtain ⟨hg, hh, hr⟩ := Mask.undo_redo_roundTrip (Mask.runOps ops) (by omega) hl
  exact ⟨hg, by rw [hh], by rw [hr]⟩

/-- Witness for C2: two committed snapshots, grid equal to the last one. -/
theorem claim_C2_witness :
    (Mask.redo (Mask.undo (Mask.runOps [Op.reset (some (1, 1)),
        Op.updateRectangle 1 0 0 0 0 true, Op.commit]))).grid =
      (Mask.runOps [Op.reset (some (1, 1)), Op.updateRectangle 1 0 0 0 0 true,
        Op.commit]).grid ∧
    (Mask.redo (Mask.undo (Mask.runOps [Op.reset (some (1, 1)),
        Op.updateRectangle 1 0 0 0 0 true, Op.commit]))).history.length =
      (Mask.runOps [Op.reset (some (1, 1)), Op.updateRectangle 1 0 0 0 0 true,
        Op.commit]).history.length ∧
    (Mask.redo (Mask.undo (Mask.runOps [Op.reset (some (1, 1)),
        Op.updateRectangle 1 0 0 0 0 true, Op.commit]))).redo.length =
      (Mask.runOps [Op.reset (some (1, 1)), Op.updateRectangle 1 0 0 0 0 true,
        Op.commit]).redo.length :=
  claim_C2 [Op.reset (some (1, 1)), Op.updateRectangle 1 0 0 0 0 true, Op.commit]
    (by decide) (by decide)

/-- Counterexample to claim C7 as stated: immediately after
`Mask.__init__` the history list is empty, not a one-snapshot list. -/
theorem claim_C7_cex : MaskState.init.history = [] := rfl

/-- Claim C7 as amended (the nearby true statement): the history is
empty right after construction; it is non-empty after every `commit()`
and after every `resetHistory()` (which re-seeds it with one snapshot of
the current grid), and every operation of the API keeps a non-empty
history non-empty. -/
theorem claim_C7 :
    (∀ s : MaskState, (Mask.commit s).history ≠ [])
    ∧ (∀ s : MaskState, (Mask.resetHistory s).history = [s.grid])
    ∧ (∀ (s : MaskState) (op : Op), s.history ≠ [] → (Mask.step op s).history ≠ []) := by
  have hcommit : ∀ s : MaskState, (Mask.commit s).history ≠ [] := by
    intro s
    unfold Mask.commit
    by_cases hcond : s.history = [] ∨ s.redo ≠ [] ∨ s.history.getLast? ≠ some s.grid
    · rw [if_pos hcond]
      simp
    · rw [if_neg hcond]
      exact fun h => hcond (Or.inl h)
  refine ⟨hcommit, fun s => rfl, ?_⟩
  intro s op h
  cases op with
  | setMask m =>
    simp only [Mask.step]
    unfold Mask.setMask
    split <;> exact h
  | resetHistory => exact List.cons_ne_nil _ _
  | commit => exact hcommit s
  | undo =>
    simp only [Mask.step]
    unfold Mask.undo
    split
    · rename_i hlen
      intro hx
      have hz : s.history.dropLast.length = 0 := by
        rw [show s.history.dropLast = ([] : List Grid) from hx]
        rfl
      rw [List.length_dropLast] at hz
      omega
    · exact h
  | redo =>
    simp only [Mask.step]
    unfold Mask.redo
    split
    · exact h
    · simp
  | clear level =>
    simp only [Mask.step]
    unfold Mask.clear
    split <;> exact h
  | reset target =>
    simp only [Mask.step]
    unfold Mask.reset
    dsimp only
    split
    · exact List.cons_ne_nil _ _
    · exact h
  | invert level =>
    simp only [Mask.step]
    unfold Mask.invert
    split <;> exact h
  | updateRectangle a b c d e f =>
    simp only [Mask.step]
    unfold Mask.updateRectangle
    split <;> exact h
  | updatePolygon a f m => exact h
  | updatePoints a rs cs m => exact h
  | updateStencil a st m => exact h
  | updateDisk a rs cs m => exact h
  | updateLine a rs cs m => exact h

/-- Witness for C7: an `undo` on a state with one history entry keeps
the history non-empty. -/
theorem claim_C7_witness :
    (Mask.step Op.undo
      { grid := zeroGrid 1 1, history := [zeroGrid 1 1], redo := [],
        historyDepth := 10, events := [] }).history ≠ [] :=
  claim_C7.2.2 _ Op.undo (by decide)

/-- Claim C10 (confirmed): `reset(shape)` with a shape different from
the current one zeroes the grid, resets the history to the single
snapshot of the new all-zero grid, clears the redo stack, fires
undoable(false) and redoable(false), and emits changed; `reset` to the
current shape zeroes the grid and emits changed without touching
history or redo stack. -/
theorem claim_C10 (s : MaskState) (r c : Nat) :
    ([r, c] ≠ s.grid.shape →
      Mask.reset (some (r, c)) s =
        { grid := zeroGrid r c, history := [zeroGrid r c], redo := [],
          historyDepth := s.historyDepth,
          events := s.events ++
            [Event.undoable false, Event.redoable false, Event.changed] })
    ∧ ([r, c] = s.grid.shape →
      Mask.reset (some (r, c)) s =
        { grid := zeroGrid r c, history := s.history, redo := s.redo,
          historyDepth := s.historyDepth,
          events := s.events ++ [Event.changed] }) := by
  constructor
  · intro hne
    unfold Mask.reset
    simp only [Option.getD_some]
    rw [if_pos hne]
    unfold Mask.resetHistory Mask.notify withEvents
    simp [List.append_assoc]
  · intro he
    unfold Mask.reset
    simp only [Option.getD_some]
    rw [if_neg (fun hx => hx he)]
    unfold Mask.notify withEvents
    rfl

/-- Witness for C10: reshaping a fresh mask to 5x5 leaves exactly one
snapshot of the 5x5 zero grid in history. -/
theorem claim_C10_witness :
    Mask.reset (some (5, 5)) MaskState.init =
      { grid := zeroGrid 5 5, history := [zeroGrid 5 5], redo := [], historyDepth := 10,
        events := [Event.undoable false, Event.redoable false, Event.changed] } := by
  have h := (claim_C10 MaskState.init 5 5).1 (by decide)
  rw [h]
  rfl

/-- One API call preserves the history-depth invariant: the depth stays
10 and the combined size of history and redo stack never exceeds it. -/
theorem Mask.step_inv (op : Op) (s : MaskState)
    (hd : s.historyDepth = 10)
    (hs : s.history.length + s.redo.length ≤ 10) :
    (Mask.step op s).historyDepth = 10 ∧
    (Mask.step op s).history.length + (Mask.step op s).redo.length ≤ 10 := by
  cases op with
  | setMask m =>
    simp only [Mask.step]
    unfold Mask.setMask
    split <;> exact ⟨hd, hs⟩
  | resetHistory =>
    simp only [Mask.step]
    refine ⟨hd, ?_⟩
    show ([s.grid] : List Grid).length + ([] : List Grid).length ≤ 10
    simp
  | commit =>
    simp only [Mask.step]
    unfold Mask.commit
    split
    · refine ⟨hd, ?_⟩
      show (capHistory s.historyDepth s.history ++ [s.grid]).length +
        ([] : List Grid).length ≤ 10
      simp only [capHistory, hd, List.length_append, List.length_drop,
        List.length_cons, List.length_nil]
      omega
    · exact ⟨hd, hs⟩
  | undo =>
    simp only [Mask.step]
    unfold Mask.undo
    split
    · rename_i hlen
      refine ⟨hd, ?_⟩
      show s.history.dropLast.length +
        (s.redo ++ [s.history.getLastD s.grid]).length ≤ 10
      simp only [List.length_append, List.length_dropLast, List.length_cons,
        List.length_nil]
      omega
    · exact ⟨hd, hs⟩
  | redo =>
    simp only [Mask.step]
    unfold Mask.redo
    split
    · exact ⟨hd, hs⟩
    · rename_i hne
      refine ⟨hd, ?_⟩
      show (s.history ++ [s.redo.getLastD s.grid]).length +
        s.redo.dropLast.length ≤ 10
      have hpos : 0 < s.redo.length := List.length_pos.mpr hne
      simp only [List.length_append, List.length_dropLast, List.length_cons,
        List.length_nil]
      omega
  | clear level =>
    simp only [Mask.step]
    unfold Mask.clear
    split <;> exact ⟨hd, hs⟩
  | reset target =>
    simp only [Mask.step]
    unfold Mask.reset
    dsimp only
    split
    · refine ⟨hd, ?_⟩
      simp [Mask.notify, withEvents, Mask.resetHistory]
    · exact ⟨hd, hs⟩
  | invert level =>
    simp only [Mask.step]
    unfold Mask.invert
    split <;> exact ⟨hd, hs⟩
  | updateRectangle a b c d e f =>
    simp only [Mask.step]
    unfold Mask.updateRectangle
    split <;> exact ⟨hd, hs⟩
  | updatePolygon a f m => exact ⟨hd, hs⟩
  | updatePoints a rs cs m => exact ⟨hd, hs⟩
  | updateStencil a st m => exact ⟨hd, hs⟩
  | updateDisk a rs cs m => exact ⟨hd, hs⟩
  | updateLine a rs cs m => exact ⟨hd, hs⟩

/-- Every reachable state satisfies the history-depth invariant. -/
theorem Mask.runOps_inv (ops : List Op) :
    (Mask.runOps ops).historyDepth = 10 ∧
    (Mask.runOps ops).history.length + (Mask.runOps ops).redo.length ≤ 10 := by
  suffices h : ∀ (l : List Op) (s : MaskState), s.historyDepth = 10 →
      s.history.length + s.redo.length ≤ 10 →
      ((l.foldl (fun s op => Mask.step op s) s).historyDepth = 10 ∧
       (l.foldl (fun s op => Mask.step op s) s).history.length +
         (l.foldl (fun s op => Mask.step op s) s).redo.length ≤ 10) by
    exact h ops MaskState.init rfl (by decide)
  intro l
  induction l with
  | nil => exact fun s h1 h2 => ⟨h1, h2⟩
  | cons op t ih =>
    intro s h1 h2
    rw [List.foldl_cons]
    obtain ⟨h1', h2'⟩ := Mask.step_inv op s h1 h2
    exact ih _ h1' h2'

/-- An `undo` on a history of at most one entry shrinks nothing and an
effective `undo` removes exactly one snapshot. -/
theorem Mask.length_undo_le (s : MaskState) :
    (Mask.undo s).history.length ≤ max 1 (s.history.length - 1) := by
  by_cases h : 1 < s.history.length
  · have hx : (Mask.undo s).history = s.history.dropLast := by
      unfold Mask.undo
      rw [if_pos h]
    rw [hx, List.length_dropLast]
    omega
  · rw [Mask.undo_of_length_le_one s (by omega)]
    omega

theorem Mask.length_iterate_undo (n : Nat) (s : MaskState) :
    (Mask.undo^[n] s).history.length ≤ max 1 (s.history.length - n) := by
  induction n generalizing s with
  | zero => simp
  | succ k ih =>
    rw [Function.iterate_succ_apply']
    have h1 := Mask.length_undo_le (Mask.undo^[k] s)
    have h2 := ih s
    omega

/-- Claim C3 (confirmed): for every call sequence from a freshly
constructed Mask, the history length never exceeds historyDepth = 10
(including after `redo()`, which appends to history), and repeated
`undo()` can restore at most historyDepth - 1 = 9 prior states: after 9
undos every further `undo()` is a no-op. -/
theorem claim_C3 (ops : List Op) :
    (Mask.runOps ops).history.length ≤ 10 ∧
    ∀ k : Nat, Mask.undo^[9 + k] (Mask.runOps ops) = Mask.undo^[9] (Mask.runOps ops) := by
  obtain ⟨hd, hlen⟩ := Mask.runOps_inv ops
  refine ⟨by omega, ?_⟩
  have hfix : (Mask.undo^[9] (Mask.runOps ops)).history.length ≤ 1 := by
    have h := Mask.length_iterate_undo 9 (Mask.runOps ops)
    omega
  intro k
  induction k with
  | zero => rfl
  | succ j ih =>
    have hx : 9 + (j + 1) = (9 + j) + 1 := by omega
    rw [hx, Function.iterate_succ_apply', ih,
      Mask.undo_of_length_le_one _ hfix]

/-- The default of `getLastD` on a non-empty list is never used: the
result is an element of the list. -/
theorem getLastD_mem_cons {α : Type} (x : α) (t : List α) (d : α) :
    (x :: t).getLastD d ∈ x :: t := by
  rw [List.getLastD_eq_getLast?,
    List.getLast?_eq_getLast_of_ne_nil (List.cons_ne_nil x t)]
  exact List.getLast_mem _

/-- Counterexample to claim C8 as stated: `setMask` is not `reset()` and
yet changes the grid shape — after `reset((2,2))`, `setMask` of a 3x3
array leaves a grid of shape `(3,3)`. -/
theorem claim_C8_cex :
    (Mask.setMask ⟨[3, 3], List.replicate 9 1⟩
      (Mask.reset (some (2, 2)) MaskState.init)).grid.shape = [3, 3]
    ∧ (Mask.reset (some (2, 2)) MaskState.init).grid.shape = [2, 2] := by decide

/-- Claim C8 as amended (the nearby true statement): `clear`, `invert`,
every region operation and `commit` preserve the grid shape; `undo` and
`redo` preserve it provided every stored snapshot has the current shape
(which `setMask` alone can break, since it may install a grid of a new
shape without any reset); and every `reset()` whose target shape differs
from the current shape performs a full history reset. -/
theorem claim_C8 :
    (∀ (s : MaskState) (level : Nat), (Mask.clear level s).grid.shape = s.grid.shape)
    ∧ (∀ (s : MaskState) (level : Nat), (Mask.invert level s).grid.shape = s.grid.shape)
    ∧ (∀ (s : MaskState) (level : Nat) (row col height width : Int) (m : Bool),
        (Mask.updateRectangle level row col height width m s).grid.shape = s.grid.shape)
    ∧ (∀ (s : MaskState) (level : Nat) (rs cs : List Int) (m : Bool),
        (Mask.updatePoints level rs cs m s).grid.shape = s.grid.shape)
    ∧ (∀ (s : MaskState) (level : Nat) (fill : Nat → Nat → Bool) (m : Bool),
        (Mask.updatePolygon level fill m s).grid.shape = s.grid.shape)
    ∧ (∀ (s : MaskState) (level : Nat) (st : Grid) (m : Bool),
        (Mask.updateStencil level st m s).grid.shape = s.grid.shape)
    ∧ (∀ (s : MaskState) (level : Nat) (rs cs : List Int) (m : Bool),
        (Mask.updateDisk level rs cs m s).grid.shape = s.grid.shape)
    ∧ (∀ (s : MaskState) (level : Nat) (rs cs : List Int) (m : Bool),
        (Mask.updateLine level rs cs m s).grid.shape = s.grid.shape)
    ∧ (∀ s : MaskState, (Mask.commit s).grid.shape = s.grid.shape)
    ∧ (∀ s : MaskState, (∀ g ∈ s.history, g.shape = s.grid.shape) →
        (Mask.undo s).grid.shape = s.grid.shape)
    ∧ (∀ s : MaskState, (∀ g ∈ s.redo, g.shape = s.grid.shape) →
        (Mask.redo s).grid.shape = s.grid.shape)
    ∧ (∀ (s : MaskState) (r c : Nat), [r, c] ≠ s.grid.shape →
        (Mask.reset (some (r, c)) s).history = [zeroGrid r c] ∧
        (Mask.reset (some (r, c)) s).redo = []) := by
  refine ⟨?_, ?_, ?_, ?_, ?_, ?_, ?_, ?_, ?_, ?_, ?_, ?_⟩
  · intro s level
    unfold Mask.clear
    split
    · exact Grid.shape_clear s.grid level
    · rfl
  · intro s level
    unfold Mask.invert
    split
    · exact Grid.shape_invert s.grid level
    · rfl
  · intro s level row col height width m
    unfold Mask.updateRectangle
    split
    · exact Grid.shape_updateRectangle s.grid level row col height width m
    · rfl
  · intro s level rs cs m
    exact Grid.shape_updatePoints s.grid level rs cs m
  · intro s level fill m
    exact Grid.shape_updatePolygon s.grid level fill m
  · intro s level st m
    exact Grid.shape_updatePoints s.grid level _ _ m
  · intro s level rs cs m
    exact Grid.shape_updatePoints s.grid level rs cs m
  · intro s level rs cs m
    exact Grid.shape_updatePoints s.grid level rs cs m
  · intro s
    unfold Mask.commit
    split <;> rfl
  · intro s h
    by_cases hl : 1 < s.history.length
    · have hg : (Mask.undo s).grid = s.history.dropLast.getLastD s.grid := by
        unfold Mask.undo
        rw [if_pos hl]
      rw [hg]
      cases hdl : s.history.dropLast with
      | nil => rfl
      | cons x t =>
        have h1 := getLastD_mem_cons x t s.grid
        exact h _ (List.dropLast_subset _ (by rw [hdl]; exact h1))
    · rw [Mask.undo_of_length_le_one s (by omega)]
  · intro s h
    by_cases hr : s.redo = []
    · have hx : Mask.redo s = s := by
        unfold Mask.redo
        rw [if_pos hr]
      rw [hx]
    · have hg : (Mask.redo s).grid = s.redo.getLastD s.grid := by
        unfold Mask.redo
        rw [if_neg hr]
      rw [hg]
      cases hrd : s.redo with
      | nil => exact absurd hrd hr
      | cons x t =>
        have h1 := getLastD_mem_cons x t s.grid
        exact h _ (by rw [hrd]; exact h1)
  · intro s r c hne
    unfold Mask.reset
    simp only [Option.getD_some]
    rw [if_pos hne]
    exact ⟨rfl, rfl⟩

/-- Witness for C8: undoing on a state whose single snapshot has the
current shape preserves the shape, and a reshaping reset on a fresh
mask fully resets the history. -/
theorem claim_C8_witness :
    (Mask.reset (some (4, 4)) MaskState.init).history = [zeroGrid 4 4] ∧
    (Mask.reset (some (4, 4)) MaskState.init).redo = [] :=
  claim_C8.2.2.2.2.2.2.2.2.2.2.2 MaskState.init 4 4 (by decide)
